import Mathlib

/-!
Verification of the multiplexed phototransistor-array sensor core of
alab_control (firmware configuration header plus the scanner core the
specification defines around it).

The only code under version control here is the configuration header
(pin arrays, derived pin counts, ON_THRESHOLD, network constants); it is
embedded literally below.  The Multiplexer, Thresholder, GridScanner,
StateReporter and GridConfig components are absent from the sources, so
they are modelled from the specification text, faithfully to its words,
and marked as such in their doc comments.
-/

namespace AlabControl

/-! ## Configuration header (config.h), embedded from the source -/

/-- pins that supply 5V to the drains of a row of phototransistors
(config.h line 2): `const int sourcePins[] = {2, 3, 4, 5, 6, 7};` -/
def sourcePins : List Int := [2, 3, 4, 5, 6, 7]

/-- pins that read the voltage at the sources of a column of
phototransistors (config.h line 3): `const int readPins[] = {8, 9, 10, 11, 12, 13};` -/
def readPins : List Int := [8, 9, 10, 11, 12, 13]

/-- number of rows in the multiplex array (config.h line 4):
`sizeof(sourcePins) / sizeof(sourcePins[0])`, i.e. the element count of
the array. -/
def numSourcePins : Nat := sourcePins.length

/-- number of columns in the multiplex array (config.h line 5):
`sizeof(readPins) / sizeof(readPins[0])`, i.e. the element count of the
array. -/
def numReadPins : Nat := readPins.length

/-- the minimum value (0-255) that a phototransistor must read to be
considered on (config.h line 7): `#define ON_THRESHOLD 150`. -/
def ON_THRESHOLD : Nat := 150

/-- Modelled from the spec: the firmware header has no OFF_THRESHOLD;
section 4.3 requires a strictly lower falling threshold for hysteresis
and section 8 fixes the example value 130 used throughout the testable
properties. -/
def OFF_THRESHOLD : Nat := 130

/-! ## Claims C9 and C10: facts about the header constants -/

/-- C9: the sizeof arithmetic of the header yields numSourcePins = 6 and
numReadPins = 6 exactly, each equal to the element count of its pin
array, so the configured grid is square (R = C = 6). -/
theorem pin_counts_are_six_and_square :
    numSourcePins = 6 ∧ numReadPins = 6 ∧
    numSourcePins = sourcePins.length ∧ numReadPins = readPins.length ∧
    numSourcePins = numReadPins := by
  decide

/-- C10: each configured pin array is strictly increasing and consists of
consecutive integers (sourcePins = 2..7, readPins = 8..13), so the
index-to-pin mapping is strictly monotonic within each array, all 12 pin
identifiers are pairwise distinct, and every read pin exceeds every
source pin. -/
theorem pin_arrays_consecutive_and_disjoint :
    sourcePins = [2, 3, 4, 5, 6, 7] ∧
    readPins = [8, 9, 10, 11, 12, 13] ∧
    List.Chain' (fun a b => b = a + 1) sourcePins ∧
    List.Chain' (fun a b => b = a + 1) readPins ∧
    List.Sorted (· < ·) sourcePins ∧
    List.Sorted (· < ·) readPins ∧
    (sourcePins ++ readPins).Nodup ∧
    (∀ a ∈ sourcePins, ∀ b ∈ readPins, a < b) := by
  refine ⟨rfl, rfl, ?_, ?_, by decide, by decide, by decide, by decide⟩
  · simp [sourcePins, List.chain'_cons]
  · simp [readPins, List.chain'_cons]

/-! ## Multiplexer (spec section 4.2), modelled from the spec -/

/-- Modelled from the spec: the firmware sources contain no Multiplexer
code; section 4.2 prescribes its pin-toggling algorithm, which we record
as a trace of primitive hardware actions. -/
inductive MuxAction where
  | activate (r : Nat)
  | settle
  | read (r c : Nat)
  | deactivate (r : Nat)
deriving DecidableEq

/-- Modelled from the spec: the per-row portion of a scan pass (spec
4.2): drive row r active, hold for the settle delay, read every column
in index order, then deactivate row r before moving on. -/
def rowBlock (C r : Nat) : List MuxAction :=
  MuxAction.activate r :: MuxAction.settle ::
    ((List.range C).map (fun c => MuxAction.read r c) ++ [MuxAction.deactivate r])

/-- Modelled from the spec: one full scan pass over an R-row, C-column
grid: the row blocks in strictly ascending row-index order. -/
def scanTrace (R C : Nat) : List MuxAction :=
  (List.range R).flatMap (rowBlock C)

/-- The rows activated along a trace, in order. -/
def activationsOf : List MuxAction → List Nat
  | [] => []
  | MuxAction.activate r :: rest => r :: activationsOf rest
  | MuxAction.settle :: rest => activationsOf rest
  | MuxAction.read _ _ :: rest => activationsOf rest
  | MuxAction.deactivate _ :: rest => activationsOf rest

/-- The (row, column) pairs read along a trace, in order. -/
def readsOf : List MuxAction → List (Nat × Nat)
  | [] => []
  | MuxAction.read r c :: rest => (r, c) :: readsOf rest
  | MuxAction.activate _ :: rest => readsOf rest
  | MuxAction.settle :: rest => readsOf rest
  | MuxAction.deactivate _ :: rest => readsOf rest

/-- Effect of one hardware action on the set of currently active rows. -/
def applyAction (s : Finset Nat) : MuxAction → Finset Nat
  | MuxAction.activate r => insert r s
  | MuxAction.deactivate r => s.erase r
  | MuxAction.settle => s
  | MuxAction.read _ _ => s

/-- The set of rows active after executing a list of actions from the
all-inactive state. -/
def activeAfter (l : List MuxAction) : Finset Nat :=
  l.foldl applyAction ∅

/-- Modelled from the spec: the RawSample acquired by a full pass — the
reading f r c stored at each (row, column) pair, row-major (spec 3,
section 4.2). -/
def acquire (f : Nat → Nat → Nat) (R C : Nat) : List ((Nat × Nat) × Nat) :=
  (List.range R).flatMap (fun r => (List.range C).map (fun c => ((r, c), f r c)))

theorem activationsOf_append (l₁ l₂ : List MuxAction) :
    activationsOf (l₁ ++ l₂) = activationsOf l₁ ++ activationsOf l₂ := by
  induction l₁ with
  | nil => rfl
  | cons a rest ih => cases a <;> simp [activationsOf, ih]

theorem readsOf_append (l₁ l₂ : List MuxAction) :
    readsOf (l₁ ++ l₂) = readsOf l₁ ++ readsOf l₂ := by
  induction l₁ with
  | nil => rfl
  | cons a rest ih => cases a <;> simp [readsOf, ih]

theorem activationsOf_reads (r : Nat) (cs : List Nat) :
    activationsOf (cs.map (fun c => MuxAction.read r c)) = [] := by
  induction cs with
  | nil => rfl
  | cons c rest ih => simp [activationsOf, ih]

theorem readsOf_reads (r : Nat) (cs : List Nat) :
    readsOf (cs.map (fun c => MuxAction.read r c)) = cs.map (fun c => (r, c)) := by
  induction cs with
  | nil => rfl
  | cons c rest ih => simp [readsOf, ih]

theorem activationsOf_rowBlock (C r : Nat) : activationsOf (rowBlock C r) = [r] := by
  simp [rowBlock, activationsOf, activationsOf_append, activationsOf_reads]

theorem readsOf_rowBlock (C r : Nat) :
    readsOf (rowBlock C r) = (List.range C).map (fun c => (r, c)) := by
  simp [rowBlock, readsOf, readsOf_append, readsOf_reads]

theorem activationsOf_scanTrace (R C : Nat) :
    activationsOf (scanTrace R C) = List.range R := by
  unfold scanTrace
  induction List.range R with
  | nil => rfl
  | cons r rest ih =>
    simp only [List.flatMap_cons, activationsOf_append, activationsOf_rowBlock, ih,
      List.singleton_append]

theorem readsOf_scanTrace (R C : Nat) :
    readsOf (scanTrace R C) =
      (List.range R).flatMap (fun r => (List.range C).map (fun c => (r, c))) := by
  unfold scanTrace
  induction List.range R with
  | nil => rfl
  | cons r rest ih =>
    simp only [List.flatMap_cons, readsOf_append, readsOf_rowBlock, ih]

theorem readsOf_scanTrace_nodup (R C : Nat) : (readsOf (scanTrace R C)).Nodup := by
  rw [readsOf_scanTrace]
  refine List.nodup_flatMap.mpr ⟨?_, ?_⟩
  · intro r _
    exact (List.nodup_range C).map (fun c₁ c₂ h => congrArg Prod.snd h)
  · refine (List.nodup_range R).imp ?_
    intro r₁ r₂ hne
    simp only [Function.onFun, List.disjoint_left, List.mem_map, List.mem_range]
    rintro x ⟨c₁, _, rfl⟩ ⟨c₂, _, hpair⟩
    exact hne (congrArg Prod.fst hpair).symm

theorem foldl_reads_id (r : Nat) (cs : List Nat) (s : Finset Nat) :
    (cs.map (fun c => MuxAction.read r c)).foldl applyAction s = s := by
  induction cs generalizing s with
  | nil => rfl
  | cons c rest ih => simp [applyAction, ih]

theorem rowBlock_foldl_empty (C r : Nat) :
    (rowBlock C r).foldl applyAction ∅ = ∅ := by
  simp only [rowBlock, List.foldl_cons, List.foldl_append, applyAction, foldl_reads_id,
    List.foldl_nil]
  exact Finset.erase_insert (Finset.not_mem_empty r)

theorem foldl_subset_of_no_activate (r : Nat) (q : List MuxAction) (s : Finset Nat)
    (hs : s ⊆ {r}) (hq : ∀ x, MuxAction.activate x ∉ q) :
    q.foldl applyAction s ⊆ {r} := by
  induction q generalizing s with
  | nil => exact hs
  | cons a rest ih =>
    have ha : ∀ x, MuxAction.activate x ∉ rest :=
      fun x h => hq x (List.mem_cons_of_mem _ h)
    simp only [List.foldl_cons]
    cases a with
    | activate x => exact absurd (List.mem_cons_self _ _) (hq x)
    | settle => exact ih s hs ha
    | read x c => exact ih s hs ha
    | deactivate x => exact ih _ ((Finset.erase_subset _ _).trans hs) ha

theorem prefix_rowBlock_subset (C r : Nat) (p : List MuxAction)
    (hp : p <+: rowBlock C r) :
    p.foldl applyAction ∅ ⊆ {r} := by
  cases p with
  | nil => simp
  | cons a q =>
    rw [rowBlock] at hp
    obtain ⟨rfl, hq⟩ := List.cons_prefix_cons.mp hp
    simp only [List.foldl_cons, applyAction]
    refine foldl_subset_of_no_activate r q (insert r ∅) (by simp) ?_
    intro x hmem
    have hx := hq.subset hmem
    simp only [List.mem_cons, List.mem_append, List.mem_map] at hx
    rcases hx with h | h | h
    · exact MuxAction.noConfusion h
    · obtain ⟨c, _, h⟩ := h
      exact MuxAction.noConfusion h
    · simp at h

theorem pre_of_append (l₁ l₂ p : List MuxAction) (h : p <+: l₁ ++ l₂) :
    p <+: l₁ ∨ ∃ q, p = l₁ ++ q ∧ q <+: l₂ := by
  induction l₁ generalizing p with
  | nil => exact Or.inr ⟨p, rfl, h⟩
  | cons a l₁ ih =>
    cases p with
    | nil => exact Or.inl ⟨a :: l₁, rfl⟩
    | cons b q =>
      obtain ⟨rfl, hq⟩ := List.cons_prefix_cons.mp h
      rcases ih q hq with h1 | ⟨q2, rfl, hq2⟩
      · exact Or.inl (List.cons_prefix_cons.mpr ⟨rfl, h1⟩)
      · exact Or.inr ⟨q2, rfl, hq2⟩

theorem flatMap_active_card (C : Nat) (rs : List Nat) (p : List MuxAction)
    (hp : p <+: rs.flatMap (rowBlock C)) :
    (p.foldl applyAction ∅).card ≤ 1 := by
  induction rs generalizing p with
  | nil =>
    have hnil : p = [] := by simpa using hp
    subst hnil; simp
  | cons r rest ih =>
    rw [List.flatMap_cons] at hp
    rcases pre_of_append _ _ _ hp with h1 | ⟨q, rfl, hq⟩
    · exact le_trans (Finset.card_le_card (prefix_rowBlock_subset C r p h1)) (by simp)
    · rw [List.foldl_append, rowBlock_foldl_empty]
      exact ih q hq

theorem mem_readsOf_scanTrace (R C r c : Nat) :
    (r, c) ∈ readsOf (scanTrace R C) ↔ r < R ∧ c < C := by
  rw [readsOf_scanTrace]
  simp [List.mem_flatMap, List.mem_map, List.mem_range, Prod.ext_iff]

theorem acquire_keys (f : Nat → Nat → Nat) (R C : Nat) :
    (acquire f R C).map Prod.fst = readsOf (scanTrace R C) := by
  rw [readsOf_scanTrace]
  simp [acquire, List.map_flatMap, List.map_map, Function.comp_def]

theorem count_eq_one_of_nodup_mem {α : Type} [BEq α] [LawfulBEq α] {l : List α} {a : α}
    (d : l.Nodup) (h : a ∈ l) : l.count a = 1 := by
  induction l with
  | nil => simp at h
  | cons b t ih =>
    rcases List.mem_cons.mp h with rfl | hmem
    · have hnot : a ∉ t := (List.nodup_cons.mp d).1
      rw [List.count_cons_self, List.count_eq_zero.mpr hnot]
    · have hne : a ≠ b := by
        rintro rfl
        exact (List.nodup_cons.mp d).1 hmem
      rw [List.count_cons_of_ne hne]
      exact ih (List.nodup_cons.mp d).2 hmem

/-- The conjunction of properties of one full Multiplexer scan pass over
an R-row, C-column grid: rows activated in strictly ascending index
order, at most one row active after any prefix of the action trace,
every row touched exactly once, every (row, column) pair read exactly
once, and every pair stored in the acquired RawSample exactly once. -/
def fullPassCorrect (R C : Nat) : Prop :=
  activationsOf (scanTrace R C) = List.range R ∧
  List.Sorted (· < ·) (activationsOf (scanTrace R C)) ∧
  (∀ p, p <+: scanTrace R C → (activeAfter p).card ≤ 1) ∧
  (∀ r, r < R → (activationsOf (scanTrace R C)).count r = 1) ∧
  (∀ r c, r < R → c < C → (readsOf (scanTrace R C)).count (r, c) = 1) ∧
  (∀ f r c, r < R → c < C → ((acquire f R C).map Prod.fst).count (r, c) = 1)

/-- C1: for every valid grid with R ≥ 1 and C ≥ 1, one full Multiplexer
scan pass activates rows strictly in ascending index order with at most
one row active at any time, touches every row exactly once, and reads
and stores every (row, column) pair exactly once. -/
theorem mux_full_pass_correct (R C : Nat) (hR : 1 ≤ R) (hC : 1 ≤ C) :
    fullPassCorrect R C := by
  refine ⟨activationsOf_scanTrace R C, ?_, ?_, ?_, ?_, ?_⟩
  · rw [activationsOf_scanTrace]
    exact List.sorted_lt_range R
  · intro p hp
    exact flatMap_active_card C (List.range R) p hp
  · intro r hr
    rw [activationsOf_scanTrace]
    exact count_eq_one_of_nodup_mem (List.nodup_range R) (List.mem_range.mpr hr)
  · intro r c hr hc
    exact count_eq_one_of_nodup_mem (readsOf_scanTrace_nodup R C)
      ((mem_readsOf_scanTrace R C r c).mpr ⟨hr, hc⟩)
  · intro f r c hr hc
    rw [acquire_keys]
    exact count_eq_one_of_nodup_mem (readsOf_scanTrace_nodup R C)
      ((mem_readsOf_scanTrace R C r c).mpr ⟨hr, hc⟩)

/-- C1 witness: the full-pass properties hold at the header's 6 × 6 grid. -/
theorem mux_full_pass_correct_witness : 1 ≤ 6 ∧ 1 ≤ 6 ∧ fullPassCorrect 6 6 :=
  ⟨by decide, by decide, mux_full_pass_correct 6 6 (by decide) (by decide)⟩

/-! ## Thresholder (spec section 4.3), modelled from the spec -/

/-- Modelled from the spec: the firmware sources contain no Thresholder
code; section 4.3 prescribes hysteresis: off→on at reading ≥ onT, on→off
at reading < offT, and a first-ever read (prior = none) treated as prior
state off. -/
def thresholdStep (onT offT : Nat) (prior : Option Bool) (reading : Nat) : Bool :=
  match prior with
  | none => decide (onT ≤ reading)
  | some false => decide (onT ≤ reading)
  | some true => !decide (reading < offT)

/-- C2: the Thresholder implements hysteresis with OFF_THRESHOLD
strictly below ON_THRESHOLD: from prior off the new state is on iff the
reading reaches ON_THRESHOLD; from prior on the new state is off iff the
reading drops below OFF_THRESHOLD; a first-ever read behaves as prior
off; and at thresholds 150/130 the spec's four example readings behave
as stated. -/
theorem thresholder_hysteresis :
    OFF_THRESHOLD < ON_THRESHOLD ∧
    (∀ r, thresholdStep ON_THRESHOLD OFF_THRESHOLD (some false) r = true ↔
      ON_THRESHOLD ≤ r) ∧
    (∀ r, thresholdStep ON_THRESHOLD OFF_THRESHOLD (some true) r = false ↔
      r < OFF_THRESHOLD) ∧
    (∀ onT offT r, thresholdStep onT offT none r =
      thresholdStep onT offT (some false) r) ∧
    thresholdStep ON_THRESHOLD OFF_THRESHOLD (some false) 140 = false ∧
    thresholdStep ON_THRESHOLD OFF_THRESHOLD (some false) 151 = true ∧
    thresholdStep ON_THRESHOLD OFF_THRESHOLD (some true) 140 = true ∧
    thresholdStep ON_THRESHOLD OFF_THRESHOLD (some true) 120 = false := by
  refine ⟨by decide, ?_, ?_, ?_, by decide, by decide, by decide, by decide⟩
  · intro r
    simp [thresholdStep]
  · intro r
    simp [thresholdStep]
  · intro onT offT r
    rfl

/-! ## GridConfig (spec sections 3, 4.1), modelled from the spec -/

/-- Modelled from the spec: immutable description of the sensor
topology — ordered row-pin and column-pin identifier sequences and an
integer threshold in [0, 255] (represented as Fin 256).  The firmware
sources hold only the static pin arrays; the GridConfig abstraction and
its constructor are absent and follow spec sections 3 and 4.1. -/
structure GridConfig where
  rowPins : List Int
  colPins : List Int
  threshold : Fin 256
deriving DecidableEq

/-- Modelled from the spec: the startup validation failure (spec 4.1,
section 7): malformed static configuration. -/
inductive ConfigError where
  | emptyRows
  | emptyCols
  | pinOverlap
deriving DecidableEq

/-- Modelled from the spec: GridConfig construction (spec 4.1): fails
with ConfigError if the row or column sequence is empty or if the two
pin sets intersect; otherwise returns the immutable configuration. -/
def mkGridConfig (rows cols : List Int) (thr : Fin 256) :
    Except ConfigError GridConfig :=
  if rows = [] then Except.error ConfigError.emptyRows
  else if cols = [] then Except.error ConfigError.emptyCols
  else if rows.any (fun p => decide (p ∈ cols)) then
    Except.error ConfigError.pinOverlap
  else Except.ok ⟨rows, cols, thr⟩

/-- The threshold value of the header, as an 8-bit quantity. -/
def headerThreshold : Fin 256 := ⟨ON_THRESHOLD, by decide⟩

/-- C6: GridConfig construction fails with ConfigError iff the row-pin
sequence is empty, the column-pin sequence is empty, or the pin sets
intersect; a constructed GridConfig has R ≥ 1, C ≥ 1, disjoint pin sets
and a threshold in [0, 255]; and construction from the header's static
configuration (sourcePins, readPins, threshold 150) succeeds. -/
theorem gridconfig_validation :
    (∀ rows cols thr,
      (∃ e, mkGridConfig rows cols thr = Except.error e) ↔
        rows = [] ∨ cols = [] ∨ ∃ p, p ∈ rows ∧ p ∈ cols) ∧
    (∀ rows cols thr cfg, mkGridConfig rows cols thr = Except.ok cfg →
      1 ≤ cfg.rowPins.length ∧ 1 ≤ cfg.colPins.length ∧
      (∀ p, p ∈ cfg.rowPins → p ∉ cfg.colPins) ∧ cfg.threshold.val ≤ 255) ∧
    mkGridConfig sourcePins readPins headerThreshold =
      Except.ok ⟨sourcePins, readPins, headerThreshold⟩ := by
  refine ⟨?_, ?_, by rfl⟩
  · intro rows cols thr
    unfold mkGridConfig
    split_ifs with h1 h2 h3
    · simp [h1]
    · simp [h2]
    · simp only [List.any_eq_true, decide_eq_true_eq] at h3
      simp only [h1, h2, false_or]
      exact ⟨fun _ => h3, fun _ => ⟨ConfigError.pinOverlap, rfl⟩⟩
    · simp only [List.any_eq_true, decide_eq_true_eq, not_exists, not_and] at h3
      constructor
      · rintro ⟨e, he⟩
        exact absurd he (by simp)
      · rintro (h | h | ⟨p, hp1, hp2⟩)
        · exact absurd h h1
        · exact absurd h h2
        · exact absurd hp2 (h3 p hp1)
  · intro rows cols thr cfg h
    unfold mkGridConfig at h
    split_ifs at h with h1 h2 h3
    obtain rfl : cfg = ⟨rows, cols, thr⟩ := by
      cases h
      rfl
    simp only [List.any_eq_true, decide_eq_true_eq, not_exists, not_and] at h3
    refine ⟨?_, ?_, h3, Nat.le_of_lt_succ thr.isLt⟩
    · exact Nat.one_le_iff_ne_zero.mpr (fun hz => h1 (List.eq_nil_of_length_eq_zero hz))
    · exact Nat.one_le_iff_ne_zero.mpr (fun hz => h2 (List.eq_nil_of_length_eq_zero hz))

/-- C6 witness: the header configuration passes validation and the
resulting GridConfig satisfies the invariants. -/
theorem gridconfig_validation_witness :
    1 ≤ (GridConfig.mk sourcePins readPins headerThreshold).rowPins.length ∧
    1 ≤ (GridConfig.mk sourcePins readPins headerThreshold).colPins.length ∧
    (∀ p, p ∈ (GridConfig.mk sourcePins readPins headerThreshold).rowPins →
      p ∉ (GridConfig.mk sourcePins readPins headerThreshold).colPins) ∧
    (GridConfig.mk sourcePins readPins headerThreshold).threshold.val ≤ 255 :=
  gridconfig_validation.2.1 sourcePins readPins headerThreshold _
    gridconfig_validation.2.2

/-! ## GridScanner and StateReporter (spec sections 4.4, 4.5, 5, 7),
modelled from the spec -/

/-- Modelled from the spec: the scanner state machine states (spec 4.4). -/
inductive ScanPhase where
  | Idle
  | Scanning
  | Settled
deriving DecidableEq

/-- Modelled from the spec: a GridSnapshot — the full grid of boolean
cell states plus the monotonic sequence number (spec section 3). -/
structure Snapshot where
  grid : Nat → Nat → Bool
  seq : Nat

/-- Modelled from the spec: the dimensions and hysteresis thresholds the
scan cycle needs. -/
structure ScanCfg where
  R : Nat
  C : Nat
  onT : Nat
  offT : Nat

/-- Modelled from the spec: the GridScanner's state — the phase, the
single current GridSnapshot it owns, and the internal error counter
(spec 4.4). -/
structure ScannerState where
  phase : ScanPhase
  snap : Snapshot
  errorCount : Nat

/-- Modelled from the spec: outcome of one Multiplexer pass — a full
RawSample of readings, or AcquisitionError (spec 4.2, section 7). -/
inductive ScanResult where
  | success (readings : Nat → Nat → Nat)
  | failure

/-- Modelled from the spec: the inputs the scanner reacts to — the
external scan trigger (tick), the completion of a Multiplexer pass, and
the transport's verdict on the hand-off to the StateReporter (spec 4.4,
4.5, section 6). -/
inductive Event where
  | tick
  | mux (r : ScanResult)
  | reportDone (ok : Bool)

/-- A change record: the flipped cell with its old and new boolean value. -/
def CellChange : Type := (Nat × Nat) × Bool × Bool

/-- Modelled from the spec: what the scanner hands outward in one step —
nothing, the start of a scan pass, or a snapshot together with its
ChangeEvent for the StateReporter (spec 4.4, 4.5). -/
inductive ScanOutput where
  | none
  | scanStarted
  | publish (snap : Snapshot) (change : List CellChange)

/-- Modelled from the spec: the ChangeEvent between two consecutive
snapshots — exactly the cells whose boolean state differs, each with its
old and new value (spec section 3). -/
def diffGrid (R C : Nat) (oldG newG : Nat → Nat → Bool) : List CellChange :=
  (List.range R).flatMap (fun r =>
    (List.range C).flatMap (fun c =>
      if oldG r c = newG r c then [] else [((r, c), (oldG r c, newG r c))]))

/-- Modelled from the spec: the next grid after a successful pass — the
Thresholder applied per cell to the reading and the prior cell state
(spec 4.3, 4.4). -/
def nextGrid (cfg : ScanCfg) (prev : Nat → Nat → Bool) (f : Nat → Nat → Nat) :
    Nat → Nat → Bool :=
  fun r c => thresholdStep cfg.onT cfg.offT (some (prev r c)) (f r c)

/-- Modelled from the spec: one transition of the GridScanner (spec 4.4,
section 5): Idle→Scanning on a tick; a tick during Scanning is dropped;
a successful Multiplexer pass builds the next snapshot (sequence + 1),
publishes it with its ChangeEvent and settles; an AcquisitionError keeps
the old snapshot, bumps the error counter and returns to Idle; the
transport verdict moves Settled back to Idle whatever it was; everything
else is ignored. -/
def step (cfg : ScanCfg) (s : ScannerState) (e : Event) :
    ScannerState × ScanOutput :=
  match s.phase, e with
  | ScanPhase.Idle, Event.tick =>
      ({ s with phase := ScanPhase.Scanning }, ScanOutput.scanStarted)
  | ScanPhase.Scanning, Event.tick => (s, ScanOutput.none)
  | ScanPhase.Scanning, Event.mux (ScanResult.success f) =>
      let g := nextGrid cfg s.snap.grid f
      let snap2 : Snapshot := ⟨g, s.snap.seq + 1⟩
      ({ s with phase := ScanPhase.Settled, snap := snap2 },
        ScanOutput.publish snap2 (diffGrid cfg.R cfg.C s.snap.grid g))
  | ScanPhase.Scanning, Event.mux ScanResult.failure =>
      ({ s with phase := ScanPhase.Idle, errorCount := s.errorCount + 1 },
        ScanOutput.none)
  | ScanPhase.Settled, Event.reportDone _ =>
      ({ s with phase := ScanPhase.Idle }, ScanOutput.none)
  | _, _ => (s, ScanOutput.none)

/-- Modelled from the spec: the StateReporter's own bookkeeping — the
count of transport send failures it has logged (spec 4.5, section 7). -/
structure ReporterState where
  sendErrors : Nat
deriving DecidableEq

/-- Modelled from the spec: the StateReporter hands a serialized message
to the transport; on failure it only counts the error (spec 4.5). -/
def reporterSend (rs : ReporterState) (ok : Bool) (msg : List Nat) : ReporterState :=
  if ok then rs else { sendErrors := rs.sendErrors + 1 }

/-- Modelled from the spec: a reporting step of the whole system: the
scanner processes the transport verdict while the reporter logs the
outcome of sending msg (spec 4.5, section 7). -/
def pushReport (cfg : ScanCfg) (s : ScannerState) (rs : ReporterState)
    (msg : List Nat) (ok : Bool) : ScannerState × ReporterState :=
  ((step cfg s (Event.reportDone ok)).1, reporterSend rs ok msg)

/-- The all-off 6 × 6 starting snapshot of the end-to-end scenario
(spec section 8), sequence number 0. -/
def snap0 : Snapshot := ⟨fun _ _ => false, 0⟩

/-- The header's scan configuration: 6 rows, 6 columns, thresholds
150/130. -/
def cfg6 : ScanCfg := ⟨numSourcePins, numReadPins, ON_THRESHOLD, OFF_THRESHOLD⟩

/-- A scanner mid-pass over the starting snapshot. -/
def sScanning : ScannerState := ⟨ScanPhase.Scanning, snap0, 0⟩

/-- The injected readings of the end-to-end scenario (spec section 8):
cell (2, 3) reads 200, everything else 0. -/
def reads23 : Nat → Nat → Nat := fun r c => if r = 2 ∧ c = 3 then 200 else 0

theorem mem_diffGrid (R C : Nat) (oldG newG : Nat → Nat → Bool)
    (r c : Nat) (a b : Bool) :
    ((r, c), (a, b)) ∈ diffGrid R C oldG newG ↔
      r < R ∧ c < C ∧ oldG r c = a ∧ newG r c = b ∧ a ≠ b := by
  unfold diffGrid
  simp only [List.mem_flatMap, List.mem_range]
  constructor
  · rintro ⟨r2, hr2, c2, hc2, hmem⟩
    by_cases h : oldG r2 c2 = newG r2 c2
    · simp [h] at hmem
    · simp only [if_neg h, List.mem_singleton, Prod.mk.injEq] at hmem
      obtain ⟨⟨hr, hc⟩, ha, hb⟩ := hmem
      subst hr; subst hc
      exact ⟨hr2, hc2, ha.symm, hb.symm, by rw [← ha, ← hb] at h; exact h⟩
  · rintro ⟨hr, hc, ha, hb, hab⟩
    refine ⟨r, hr, c, hc, ?_⟩
    have h : ¬ oldG r c = newG r c := by rw [ha, hb]; exact hab
    simp [if_neg h, ha, hb]
    exact hab

theorem diffGrid_self (R C : Nat) (g : Nat → Nat → Bool) :
    diffGrid R C g g = [] := by
  unfold diffGrid
  rw [List.flatMap_eq_nil_iff]
  intro r _
  rw [List.flatMap_eq_nil_iff]
  intro c _
  simp

/-- C3: the snapshot sequence number strictly increases across every
pair of consecutive successful scan passes (each successful pass takes
it from seq to seq + 1), and a pass that fails with AcquisitionError
leaves the sequence number unchanged. -/
theorem sequence_number_monotone (cfg : ScanCfg) (s : ScannerState)
    (f : Nat → Nat → Nat) (h : s.phase = ScanPhase.Scanning) :
    (step cfg s (Event.mux (ScanResult.success f))).1.snap.seq = s.snap.seq + 1 ∧
    s.snap.seq < (step cfg s (Event.mux (ScanResult.success f))).1.snap.seq ∧
    (step cfg s (Event.mux ScanResult.failure)).1.snap.seq = s.snap.seq := by
  obtain ⟨ph, sn, ec⟩ := s
  dsimp at h
  subst h
  exact ⟨rfl, Nat.lt_succ_self _, rfl⟩

/-- C3 witness: at a concrete Scanning state a successful pass advances
the sequence number from 0 to 1 and a failed pass keeps it at 0. -/
theorem sequence_number_monotone_witness :
    (step cfg6 sScanning (Event.mux (ScanResult.success reads23))).1.snap.seq =
      sScanning.snap.seq + 1 ∧
    sScanning.snap.seq <
      (step cfg6 sScanning (Event.mux (ScanResult.success reads23))).1.snap.seq ∧
    (step cfg6 sScanning (Event.mux ScanResult.failure)).1.snap.seq =
      sScanning.snap.seq :=
  sequence_number_monotone cfg6 sScanning reads23 rfl

/-- C4: the ChangeEvent published for a pair of consecutive snapshots
contains a cell exactly when its boolean state differs between the two,
recording the old and new value, and diffing a snapshot against itself
is empty. -/
theorem change_event_exact (cfg : ScanCfg) (s : ScannerState)
    (f : Nat → Nat → Nat) (h : s.phase = ScanPhase.Scanning) :
    (∃ snap2 change,
      step cfg s (Event.mux (ScanResult.success f)) =
        ({ s with phase := ScanPhase.Settled, snap := snap2 },
          ScanOutput.publish snap2 change) ∧
      (∀ r c a b, ((r, c), (a, b)) ∈ change ↔
        r < cfg.R ∧ c < cfg.C ∧ s.snap.grid r c = a ∧ snap2.grid r c = b ∧ a ≠ b)) ∧
    (∀ R C g, diffGrid R C g g = []) := by
  obtain ⟨ph, sn, ec⟩ := s
  dsimp at h
  subst h
  refine ⟨⟨⟨nextGrid cfg sn.grid f, sn.seq + 1⟩,
    diffGrid cfg.R cfg.C sn.grid (nextGrid cfg sn.grid f), rfl, ?_⟩,
    diffGrid_self⟩
  intro r c a b
  exact mem_diffGrid cfg.R cfg.C sn.grid (nextGrid cfg sn.grid f) r c a b

/-- C4 witness: the published ChangeEvent at a concrete Scanning state
is characterized by the cellwise difference of the two snapshots, and
self-diff is empty. -/
theorem change_event_exact_witness :
    (∃ snap2 change,
      step cfg6 sScanning (Event.mux (ScanResult.success reads23)) =
        ({ sScanning with phase := ScanPhase.Settled, snap := snap2 },
          ScanOutput.publish snap2 change) ∧
      (∀ r c a b, ((r, c), (a, b)) ∈ change ↔
        r < cfg6.R ∧ c < cfg6.C ∧ sScanning.snap.grid r c = a ∧
          snap2.grid r c = b ∧ a ≠ b)) ∧
    (∀ R C g, diffGrid R C g g = []) :=
  change_event_exact cfg6 sScanning reads23 rfl

/-- C5: an AcquisitionError is fail-soft and atomic: the held snapshot
is unchanged, nothing is handed to the StateReporter, the error counter
goes up by exactly one, and the scanner returns to Idle. -/
theorem acquisition_error_fail_soft (cfg : ScanCfg) (s : ScannerState)
    (h : s.phase = ScanPhase.Scanning) :
    (step cfg s (Event.mux ScanResult.failure)).1.snap = s.snap ∧
    (step cfg s (Event.mux ScanResult.failure)).2 = ScanOutput.none ∧
    (step cfg s (Event.mux ScanResult.failure)).1.errorCount = s.errorCount + 1 ∧
    (step cfg s (Event.mux ScanResult.failure)).1.phase = ScanPhase.Idle := by
  obtain ⟨ph, sn, ec⟩ := s
  dsimp at h
  subst h
  exact ⟨rfl, rfl, rfl, rfl⟩

/-- C5 witness: at a concrete Scanning state a failed pass keeps the
snapshot, publishes nothing, bumps the error counter from 0 to 1 and
lands in Idle. -/
theorem acquisition_error_fail_soft_witness :
    (step cfg6 sScanning (Event.mux ScanResult.failure)).1.snap = sScanning.snap ∧
    (step cfg6 sScanning (Event.mux ScanResult.failure)).2 = ScanOutput.none ∧
    (step cfg6 sScanning (Event.mux ScanResult.failure)).1.errorCount =
      sScanning.errorCount + 1 ∧
    (step cfg6 sScanning (Event.mux ScanResult.failure)).1.phase = ScanPhase.Idle :=
  acquisition_error_fail_soft cfg6 sScanning rfl

/-- C7: a TransportError never changes scanner state: for every scanner
state and every message, the scanner after a failed send is identical to
the scanner after a successful one, and its snapshot, sequence number
and error counter are those it held before the send. -/
theorem transport_error_no_scanner_effect (cfg : ScanCfg) (s : ScannerState)
    (rs : ReporterState) (msg : List Nat) :
    (pushReport cfg s rs msg false).1 = (pushReport cfg s rs msg true).1 ∧
    (pushReport cfg s rs msg false).1.snap = s.snap ∧
    (pushReport cfg s rs msg false).1.snap.seq = s.snap.seq ∧
    (pushReport cfg s rs msg false).1.errorCount = s.errorCount ∧
    (pushReport cfg s rs msg true).1.snap = s.snap ∧
    (pushReport cfg s rs msg true).1.errorCount = s.errorCount := by
  obtain ⟨ph, sn, ec⟩ := s
  cases ph <;> exact ⟨rfl, rfl, rfl, rfl, rfl, rfl⟩

/-- C8: a scan trigger received while Scanning is dropped without any
effect — the state (snapshot, sequence number, error counter, phase) is
unchanged and nothing is emitted — and no event whatsoever starts a scan
pass while one is in progress. -/
theorem scanning_trigger_dropped (cfg : ScanCfg) (s : ScannerState)
    (h : s.phase = ScanPhase.Scanning) :
    step cfg s Event.tick = (s, ScanOutput.none) ∧
    (∀ e, (step cfg s e).2 ≠ ScanOutput.scanStarted) := by
  obtain ⟨ph, sn, ec⟩ := s
  dsimp at h
  subst h
  refine ⟨rfl, ?_⟩
  intro e he
  cases e with
  | tick => exact ScanOutput.noConfusion he
  | mux r =>
    cases r with
    | success f => exact ScanOutput.noConfusion he
    | failure => exact ScanOutput.noConfusion he
  | reportDone ok => exact ScanOutput.noConfusion he

/-- C8 witness: at a concrete Scanning state the trigger is dropped with
no state change and no event starts a second pass. -/
theorem scanning_trigger_dropped_witness :
    step cfg6 sScanning Event.tick = (sScanning, ScanOutput.none) ∧
    (∀ e, (step cfg6 sScanning e).2 ≠ ScanOutput.scanStarted) :=
  scanning_trigger_dropped cfg6 sScanning rfl

end AlabControl
